import Mathlib

/-!
Verification of the go-quartz execution core: the cron-backed `CronTrigger`
(`quartz/cron.go`) and the `ShellJob` executor.

The cron expression compiler and `Schedule.Next` live in the external
robfig/cron dependency, so their minute-level semantics are modelled from the
spec: a compiled 5-field schedule is a predicate on (minute, hour,
day-of-month, month, day-of-week), and `Next` returns the earliest
minute-aligned instant strictly after the base time that matches the
schedule, with a bounded multi-year search horizon after which the search is
reported exhausted.  All times are UTC (the location used by every claim).
-/

namespace GoQuartz

/-- Proleptic Gregorian calendar date. -/
structure Date where
  year : Nat
  month : Nat
  day : Nat
deriving DecidableEq, Repr

/-- Civil-from-days conversion: the date of day `z`, counting days from the
Unix epoch 1970-01-01 (day 0). -/
def dateOfEpochDay (z : Nat) : Date :=
  let zd := z + 719468
  let era := zd / 146097
  let doe := zd % 146097
  let yoe := (doe - doe / 1460 + doe / 36524 - doe / 146097) / 365
  let y := yoe + era * 400
  let doy := doe - (365 * yoe + yoe / 4 - yoe / 100)
  let mp := (5 * doy + 2) / 153
  let d := doy - (153 * mp + 2) / 5 + 1
  let m := if mp < 10 then mp + 3 else mp - 9
  ⟨if m ≤ 2 then y + 1 else y, m, d⟩

/-- Day of week of epoch day `z`, cron numbering: 0 = Sunday.
1970-01-01 (day 0) was a Thursday (= 4). -/
def weekdayOfEpochDay (z : Nat) : Nat := (z + 4) % 7

/-- Modelled from the spec: the compiled form of a standard 5-field cron
expression (minute, hour, day-of-month, month, day-of-week), as produced by
the external robfig/cron parser used in `NewCronTriggerWithLoc`.  Each field
is the set of matching values; `domStar`/`dowStar` record whether the
day-of-month/day-of-week field was the wildcard, which selects between the
AND and OR day-matching rule of standard cron. -/
structure CronSchedule where
  minute : Nat → Bool
  hour : Nat → Bool
  dom : Nat → Bool
  domStar : Bool
  month : Nat → Bool
  dow : Nat → Bool
  dowStar : Bool

/-- Standard cron day matching: when either the day-of-month or the
day-of-week field is a wildcard both must match, otherwise a day matches if
either field matches. -/
def dayMatches (s : CronSchedule) (dt : Date) (wd : Nat) : Bool :=
  s.month dt.month &&
    (if s.domStar || s.dowStar then s.dom dt.day && s.dow wd
     else s.dom dt.day || s.dow wd)

/-- Whether minute-of-day `mo` (0..1439) matches the hour and minute fields. -/
def minuteMatches (s : CronSchedule) (mo : Nat) : Bool :=
  s.hour (mo / 60) && s.minute (mo % 60)

/-- First minute-of-day `mo' ≥ mo`, `mo' < 1440`, matching the hour/minute
fields; fuel-driven linear scan. -/
def scanMinute (s : CronSchedule) : Nat → Nat → Option Nat
  | 0, _ => none
  | fuel + 1, mo =>
    if 1440 ≤ mo then none
    else if minuteMatches s mo then some mo
    else scanMinute s fuel (mo + 1)

def nextMinuteInDay (s : CronSchedule) (mo : Nat) : Option Nat :=
  scanMinute s 1440 mo

/-- Search for the earliest matching absolute minute, starting at epoch day
`day`, minute-of-day `mo`; later days are searched from minute 0.  Returns
the absolute minute index `day * 1440 + minuteOfDay`. -/
def searchFrom (s : CronSchedule) : Nat → Nat → Nat → Option Nat
  | 0, _, _ => none
  | fuel + 1, day, mo =>
    if dayMatches s (dateOfEpochDay day) (weekdayOfEpochDay day) then
      match nextMinuteInDay s mo with
      | some mo' => some (day * 1440 + mo')
      | none => searchFrom s fuel (day + 1) 0
    else searchFrom s fuel (day + 1) 0

/-- Search horizon in days, modelling the roughly-five-year limit after which
the external scheduler's `Next` gives up and returns the zero time. -/
def searchFuel : Nat := 2200

/-- Modelled from the spec: `Schedule.Next` at minute granularity.  Given the
first candidate minute index (the earliest whole minute strictly after the
base time), returns the earliest matching minute index, or `none` when the
search horizon is exhausted (the zero time in the source). -/
def scheduleNext (s : CronSchedule) (startMinute : Nat) : Option Nat :=
  searchFrom s searchFuel (startMinute / 1440) (startMinute % 1440)

/-- The trigger of `quartz/cron.go`: expression, compiled schedule and
location (the embedding fixes the location to UTC, which every claim uses;
the field keeps the location's name). -/
structure CronTrigger where
  expression : String
  schedule : CronSchedule
  location : String

/-- Errors produced by the constructor in `quartz/cron.go`: an
illegal-argument error or a wrapped parse error. -/
inductive CronError
  | illegalArgument (msg : String)
  | parseError (msg : String)
deriving DecidableEq, Repr

/-- The constructor `NewCronTriggerWithLoc`: a nil location and an empty
expression are rejected as illegal arguments, in that order; then the
expression is handed to the (external, here abstracted) parser and a parse
failure is returned as a parse error; only on success is a trigger built. -/
def NewCronTriggerWithLoc (parse : String → Except String CronSchedule)
    (location : Option String) (expression : String) :
    Except CronError CronTrigger :=
  match location with
  | none => .error (.illegalArgument ("location is nil"))
  | some loc =>
    if expression = "" then
      .error (.illegalArgument ("cron expression cannot be empty"))
    else
      match parse expression with
      | .error e => .error (.parseError e)
      | .ok schedule => .ok ⟨expression, schedule, loc⟩

/-- The method `CronTrigger.NextFireTime`: for `prev ≤ 0` the base time is
"now" (passed explicitly as `nowMs`, epoch ms), otherwise `prev`; the result
is the earliest matching minute strictly after the base, in epoch ms, and
`none` models the `(-1, error)` exhaustion return. -/
def CronTrigger.NextFireTime (ct : CronTrigger) (nowMs prev : Int) : Option Int :=
  match scheduleNext ct.schedule
      ((if prev ≤ 0 then nowMs else prev).toNat / 60000 + 1) with
  | some m => some ((m : Int) * 60000)
  | none => none

/-- Modelled from the spec: the compiled form of `"0 9 * * 1-5"`
(minute 0, hour 9, any day-of-month (wildcard), any month, Monday-Friday). -/
def weekdaysAt9 : CronSchedule where
  minute := fun n => n == 0
  hour := fun n => n == 9
  dom := fun _ => true
  domStar := true
  month := fun _ => true
  dow := fun n => decide (1 ≤ n ∧ n ≤ 5)
  dowStar := false

/-- Modelled from the spec: the compiled form of `"0 0 29-31 2 *"`
(minute 0, hour 0, day-of-month 29-31, February, any weekday (wildcard)). -/
def feb29to31 : CronSchedule where
  minute := fun n => n == 0
  hour := fun n => n == 0
  dom := fun n => decide (29 ≤ n ∧ n ≤ 31)
  domStar := false
  month := fun n => n == 2
  dow := fun _ => true
  dowStar := true

def weekdaysAt9Trigger : CronTrigger := ⟨"0 9 * * 1-5", weekdaysAt9, "UTC"⟩

def feb29to31Trigger : CronTrigger := ⟨"0 0 29-31 2 *", feb29to31, "UTC"⟩

set_option maxRecDepth 1000000

/-- A successful minute scan yields a minute-of-day at or after the start of
the scan, below 1440. -/
theorem scanMinute_le (s : CronSchedule) :
    ∀ fuel mo mo', scanMinute s fuel mo = some mo' → mo ≤ mo' ∧ mo' < 1440 := by
  intro fuel
  induction fuel with
  | zero => intro mo mo' h; exact Option.noConfusion h
  | succ n ih =>
    intro mo mo' h
    simp only [scanMinute] at h
    split at h
    · exact Option.noConfusion h
    · split at h
      · cases h
        omega
      · have := ih (mo + 1) mo' h
        omega

/-- A successful day search yields an absolute minute at or after its
starting position. -/
theorem searchFrom_le (s : CronSchedule) :
    ∀ fuel day mo m, mo < 1440 → searchFrom s fuel day mo = some m →
      day * 1440 + mo ≤ m := by
  intro fuel
  induction fuel with
  | zero => intro day mo m _ h; exact Option.noConfusion h
  | succ n ih =>
    intro day mo m hmo h
    simp only [searchFrom] at h
    split at h
    · cases hscan : nextMinuteInDay s mo with
      | some mo2 =>
        rw [hscan] at h
        injection h with h2
        have h3 : scanMinute s 1440 mo = some mo2 := hscan
        have := scanMinute_le s 1440 mo mo2 h3
        omega
      | none =>
        rw [hscan] at h
        have := ih (day + 1) 0 m (by omega) h
        omega
    · have := ih (day + 1) 0 m (by omega) h
      omega

/-- A successful `NextFireTime` is strictly after its base time (the previous
fire time, or "now" for a non-positive previous time) and is at least one
minute past the epoch. -/
theorem NextFireTime_gt_base (ct : CronTrigger) (nowMs prev r : Int)
    (h : ct.NextFireTime nowMs prev = some r) :
    (if prev ≤ 0 then nowMs else prev) < r ∧ 60000 ≤ r := by
  unfold CronTrigger.NextFireTime at h
  set base : Int := if prev ≤ 0 then nowMs else prev with hbase
  cases hs : scheduleNext ct.schedule (base.toNat / 60000 + 1) with
  | none => rw [hs] at h; exact Option.noConfusion h
  | some m =>
    rw [hs] at h
    injection h with h2
    unfold scheduleNext at hs
    have h3 := searchFrom_le ct.schedule searchFuel
      ((base.toNat / 60000 + 1) / 1440) ((base.toNat / 60000 + 1) % 1440) m
      (Nat.mod_lt _ (by omega)) hs
    have h4 := Nat.div_add_mod (base.toNat / 60000 + 1) 1440
    omega

/-- C1: for every constructed trigger, a successful `NextFireTime prev` with
`prev > 0` is strictly greater than `prev`, and with `prev ≤ 0` strictly
greater than the current time used as base; every successful result is
positive, so feeding it back as the next `prev` again strictly increases —
chained calls give a strictly increasing sequence of fire times. -/
theorem NextFireTime_strict_increase (ct : CronTrigger) (nowMs prev r : Int)
    (h : ct.NextFireTime nowMs prev = some r) :
    (0 < prev → prev < r) ∧ (prev ≤ 0 → 0 ≤ nowMs → nowMs < r) ∧ 0 < r ∧
      ∀ nowMs2 r2, ct.NextFireTime nowMs2 r = some r2 → r < r2 := by
  obtain ⟨h1, h2⟩ := NextFireTime_gt_base ct nowMs prev r h
  refine ⟨?_, ?_, by omega, ?_⟩
  · intro hp
    rw [if_neg (by omega)] at h1
    exact h1
  · intro hp _
    rw [if_pos hp] at h1
    exact h1
  · intro nowMs2 r2 h3
    obtain ⟨h4, _⟩ := NextFireTime_gt_base ct nowMs2 r r2 h3
    rw [if_neg (by omega)] at h4
    exact h4

/-- Witness for C1: the trigger for "0 9 * * 1-5" stepped from Friday
2024-01-05T12:00:00Z fires at a strictly later instant. -/
theorem NextFireTime_strict_increase_witness :
    weekdaysAt9Trigger.NextFireTime 0 1704456000000 = some 1704704400000 ∧
      (1704456000000 : Int) < 1704704400000 ∧ (0 : Int) < 1704704400000 := by
  have h := NextFireTime_strict_increase weekdaysAt9Trigger 0 1704456000000
    1704704400000 (by decide)
  exact ⟨by decide, h.1 (by decide), h.2.2.1⟩

/-- C8: concrete 5-field cron computations. The weekday schedule
"0 9 * * 1-5" maps Friday 2024-01-05T12:00:00Z to Monday
2024-01-08T09:00:00Z; the schedule "0 0 29-31 2 *" anchored at
2024-01-01T00:00:00Z yields Feb 29 2024 00:00:00Z (leap year honored), and
anchored at 2025-03-01T00:00:00Z (a non-leap year) skips to Feb 29 2028
00:00:00Z, the next qualifying leap year. -/
theorem NextFireTime_concrete_values :
    weekdaysAt9Trigger.NextFireTime 0 1704456000000 = some 1704704400000 ∧
      feb29to31Trigger.NextFireTime 0 1704067200000 = some 1709164800000 ∧
      feb29to31Trigger.NextFireTime 0 1740787200000 = some 1835395200000 :=
  ⟨by decide, by decide, by decide⟩

/-- C6: construction fails fast. A nil location or an empty expression is
rejected with an illegal-argument error (in that order), a parser failure is
returned as a parse error, and a trigger is produced only when the location
is present, the expression non-empty, and the parse succeeded — the trigger
then carries exactly that expression and compiled schedule. -/
theorem NewCronTriggerWithLoc_fail_fast
    (parse : String → Except String CronSchedule)
    (location : Option String) (expression : String) :
    (location = none →
      NewCronTriggerWithLoc parse location expression =
        .error (.illegalArgument ("location is nil"))) ∧
    (location ≠ none → expression = "" →
      NewCronTriggerWithLoc parse location expression =
        .error (.illegalArgument ("cron expression cannot be empty"))) ∧
    (∀ e, location ≠ none → expression ≠ "" → parse expression = .error e →
      NewCronTriggerWithLoc parse location expression =
        .error (.parseError e)) ∧
    (∀ t, NewCronTriggerWithLoc parse location expression = .ok t →
      location ≠ none ∧ expression ≠ "" ∧ parse expression = .ok t.schedule ∧
        t.expression = expression) := by
  cases location with
  | none =>
    refine ⟨fun _ => rfl, ?_, ?_, ?_⟩
    · intro hl
      exact absurd rfl hl
    · intro e hl
      exact absurd rfl hl
    · intro t ht
      exact Except.noConfusion ht
  | some l =>
    refine ⟨?_, ?_, ?_, ?_⟩
    · intro hl
      exact Option.noConfusion hl
    · intro _ he
      simp [NewCronTriggerWithLoc, he]
    · intro e _ he hp
      simp [NewCronTriggerWithLoc, he, hp]
    · intro t ht
      simp only [NewCronTriggerWithLoc] at ht
      split at ht
      · exact Except.noConfusion ht
      · cases hp : parse expression with
        | error e =>
          rw [hp] at ht
          exact Except.noConfusion ht
        | ok s =>
          rw [hp] at ht
          injection ht with ht2
          subst ht2
          refine ⟨by simp, by assumption, rfl, rfl⟩

/-- Witness for C6: an empty expression with a non-nil location is rejected
with the illegal-argument error. -/
theorem NewCronTriggerWithLoc_fail_fast_witness :
    NewCronTriggerWithLoc (fun _ => .error ("bad")) (some ("UTC")) "" =
      .error (.illegalArgument ("cron expression cannot be empty")) :=
  (NewCronTriggerWithLoc_fail_fast (fun _ => .error ("bad"))
    (some ("UTC")) "").2.1 (by simp) rfl

/-!
The ShellJob executor.  The `Status` enum and the `JobTimeout` default are
declared in parts of the job package outside the provided sources and are
modelled from the spec; everything else mirrors the provided `Execute`,
`setJobResult`, `terminateProcess`, `NewShellJob` and accessor sources.  The
interaction with the operating system (start error, wait result, process
state, the completion-versus-deadline race, the context error and the
captured buffers) is abstracted into an explicit per-invocation environment,
and the externally observable steps of `Execute` are recorded as an ordered
event list.
-/

/-- Modelled from the spec: the 4-valued job outcome enum of the job package
(the Go declaration of `Status` and its constants is outside the provided
sources): NotApplicable (initial, pre-execution), OK, Failure, Timeout. -/
inductive Status
  | NA
  | OK
  | Failure
  | Timeout
deriving DecidableEq, Repr

/-- The result snapshot committed by a ShellJob run. -/
structure ShellJobResult where
  exitCode : Int
  stdout : String
  stderr : String
deriving DecidableEq, Repr

/-- The ShellJob state: command, timeout, last committed result and status,
and whether a completion callback was configured (the callback body itself
is modelled separately, as behaviour handed to its recover boundary). -/
structure ShellJob where
  cmd : String
  timeout : Int
  result : ShellJobResult
  jobStatus : Status
  hasCallback : Bool
deriving DecidableEq, Repr

/-- The recognized constructor options (`WithTimeout`, `WithCallback`). -/
inductive ShellJobOption
  | withTimeout (d : Int)
  | withCallback
deriving DecidableEq, Repr

/-- Application of one option: `WithTimeout` overrides the timeout only when
positive; `WithCallback` installs the callback. -/
def applyOpt (job : ShellJob) : ShellJobOption → ShellJob
  | .withTimeout d => if 0 < d then { job with timeout := d } else job
  | .withCallback => { job with hasCallback := true }

/-- The constructor `NewShellJob`: an empty command panics (modelled as
`none`); otherwise the job starts with status NotApplicable, the library
default timeout (`JobTimeout`, whose declaration is outside the provided
sources, passed here as `defaultTimeout`), a zero-initialized result, and
the options applied in order. -/
def NewShellJob (defaultTimeout : Int) (cmd : String)
    (opts : List ShellJobOption) : Option ShellJob :=
  if cmd = "" then none
  else some (List.foldl applyOpt
    { cmd := cmd, timeout := defaultTimeout,
      result := { exitCode := 0, stdout := "", stderr := "" },
      jobStatus := .NA, hasCallback := false } opts)

def ShellJob.ExitCode (sh : ShellJob) : Int := sh.result.exitCode

def ShellJob.Stdout (sh : ShellJob) : String := sh.result.stdout

def ShellJob.Stderr (sh : ShellJob) : String := sh.result.stderr

def ShellJob.JobStatus (sh : ShellJob) : Status := sh.jobStatus

/-- The accessor `Result` returns a defensive copy of the snapshot. -/
def ShellJob.Result (sh : ShellJob) : ShellJobResult :=
  { exitCode := sh.result.exitCode, stdout := sh.result.stdout,
    stderr := sh.result.stderr }

/-- The helper `setJobResult`: under the write lock, overwrite stdout,
stderr, exit code and status as one critical section. -/
def ShellJob.setJobResult (sh : ShellJob) (stdout stderr : String)
    (exitCode : Int) (status : Status) : ShellJob :=
  { sh with
    result := { stdout := stdout, stderr := stderr, exitCode := exitCode }
    jobStatus := status }

/-- Observable events of one Execute invocation, in program order. -/
inductive ExecEvent
  | startAttempt
  | terminate
  | waitDone
  | commit (r : ShellJobResult) (st : Status)
  | scheduleCallback
deriving DecidableEq, Repr

def isScheduleCallback : ExecEvent → Bool
  | .scheduleCallback => true
  | _ => false

def isStartAttempt : ExecEvent → Bool
  | .startAttempt => true
  | _ => false

/-- The environment of one Execute invocation: what the spawned process and
the ambient context did.  `startErr` is the error of cmd.Start, if any;
`deadlineFirst` says whether ctx.Done() won the select against the
completion watcher; `waitErr` is the error of cmd.Wait; `procExit` is
ProcessState.ExitCode() when ProcessState is non-nil; `ctxErr` is ctx.Err();
the captured fields hold the buffers' contents. -/
structure ExecEnv where
  stdoutCaptured : String
  stderrCaptured : String
  startErr : Option String
  deadlineFirst : Bool
  waitErr : Option String
  procExit : Option Int
  ctxErr : String
deriving DecidableEq, Repr

/-- Outcome of one Execute invocation: the job with its committed snapshot,
the returned error, and the ordered events. -/
structure ExecOutcome where
  job : ShellJob
  ret : Option String
  events : List ExecEvent
deriving DecidableEq, Repr

/-- The method `Execute`: a start failure commits {buffers, -1, Failure} and
returns the spawn error at once — before the callback block, which is
therefore skipped on that path.  Otherwise the completion watcher races the
deadline: completion derives the exit code from the process state (or -1
when it is unavailable despite a wait error, else 0), sets OK exactly when
the wait returned no error, commits the buffers and returns the wait error;
the deadline path terminates the process, drains the watcher, commits
{buffers, -1, Timeout} and returns ctx.Err().  On the two racing paths a
configured callback is then launched asynchronously. -/
def ShellJob.Execute (sh : ShellJob) (env : ExecEnv) : ExecOutcome :=
  match env.startErr with
  | some e =>
    { job := sh.setJobResult env.stdoutCaptured env.stderrCaptured (-1)
        .Failure
      ret := some e
      events := [.startAttempt,
        .commit ⟨-1, env.stdoutCaptured, env.stderrCaptured⟩ .Failure] }
  | none =>
    if env.deadlineFirst then
      { job := sh.setJobResult env.stdoutCaptured env.stderrCaptured (-1)
          .Timeout
        ret := some env.ctxErr
        events := [.startAttempt, .terminate, .waitDone,
            .commit ⟨-1, env.stdoutCaptured, env.stderrCaptured⟩ .Timeout] ++
          (if sh.hasCallback then [.scheduleCallback] else []) }
    else
      let exitCode : Int :=
        match env.procExit with
        | some c => c
        | none => if env.waitErr.isSome then -1 else 0
      let status : Status := if env.waitErr.isSome then .Failure else .OK
      { job := sh.setJobResult env.stdoutCaptured env.stderrCaptured exitCode
          status
        ret := env.waitErr
        events := [.startAttempt, .waitDone,
            .commit ⟨exitCode, env.stdoutCaptured, env.stderrCaptured⟩
              status] ++
          (if sh.hasCallback then [.scheduleCallback] else []) }

/-- Events of the helper `terminateProcess`. -/
inductive TermEvent
  | signalTermGroup
  | sleep100ms
  | signalKillGroup
deriving DecidableEq, Repr

/-- Environment of `terminateProcess`: whether cmd.Process is nil, whether
the group SIGTERM syscall failed, and whether the process was still alive
after the grace period — the last is part of the observable world but the
source never consults it. -/
structure TermEnv where
  processNil : Bool
  termSignalFails : Bool
  aliveAfterGrace : Bool
deriving DecidableEq, Repr

/-- The helper `terminateProcess`: nothing for a nil process; SIGTERM to the
process group, and on syscall failure an immediate SIGKILL to the group;
otherwise sleep the fixed 100 ms grace period and then send SIGKILL to the
group unconditionally. -/
def terminateProcess (env : TermEnv) : List TermEvent :=
  if env.processNil then []
  else if env.termSignalFails then [.signalTermGroup, .signalKillGroup]
  else [.signalTermGroup, .sleep100ms, .signalKillGroup]

/-- Behaviour of one callback body: it either finishes or raises a panic. -/
inductive CallbackBehavior
  | finishes
  | panics (msg : String)
deriving DecidableEq, Repr

/-- The deferred recover block wrapped around the callback goroutine: a
panic is caught and only logged (the returned message); nothing escapes. -/
def callbackBoundary : CallbackBehavior → Option String
  | .finishes => none
  | .panics m => some m

/-- Execute together with the later, asynchronous callback run: the pair of
Execute's own outcome and the message, if any, logged by the callback's
recover boundary.  The callback runs only when Execute scheduled it. -/
def ShellJob.executeThen (sh : ShellJob) (env : ExecEnv)
    (cb : CallbackBehavior) : ExecOutcome × Option String :=
  let o := sh.Execute env
  if o.events.contains .scheduleCallback then (o, callbackBoundary cb)
  else (o, none)

/-- One field write inside the `setJobResult` critical section. -/
inductive FieldWrite
  | wStdout (v : String)
  | wStderr (v : String)
  | wExit (v : Int)
  | wStatus (v : Status)
deriving DecidableEq, Repr

def applyWrite : ShellJobResult × Status → FieldWrite → ShellJobResult × Status
  | (r, st), .wStdout v => ({ r with stdout := v }, st)
  | (r, st), .wStderr v => ({ r with stderr := v }, st)
  | (r, st), .wExit v => ({ r with exitCode := v }, st)
  | (r, _), .wStatus v => (r, v)

/-- The field writes of one `setJobResult` call, in source order: stdout,
stderr, exit code, status. -/
def commitWrites (stdout stderr : String) (exitCode : Int) (status : Status) :
    List FieldWrite :=
  [.wStdout stdout, .wStderr stderr, .wExit exitCode, .wStatus status]

/-- A critical section on the job's RWMutex: one `setJobResult` call (write
lock) or one accessor (read lock).  The RWMutex makes every write section
exclusive with every other section, so a legal interleaving is a sequence of
complete sections. -/
inductive Session
  | write (stdout stderr : String) (exitCode : Int) (status : Status)
  | read
deriving DecidableEq, Repr

/-- Run a history of serialized critical sections over the shared
result/status pair, collecting each reader's observation. -/
def runHistory (st : ShellJobResult × Status) :
    List Session → List (ShellJobResult × Status)
  | [] => []
  | .read :: rest => st :: runHistory st rest
  | .write o e c s :: rest =>
    runHistory (List.foldl applyWrite st (commitWrites o e c s)) rest

/-- A snapshot is coherent for a history when it is the initial snapshot or
the complete committed snapshot of some single write section of the
history. -/
def coherent (init : ShellJobResult × Status) (hist : List Session)
    (obs : ShellJobResult × Status) : Prop :=
  obs = init ∨ ∃ o e c s, Session.write o e c s ∈ hist ∧ obs = (⟨c, o, e⟩, s)

/-- A demonstration job for the concrete instances: command "exit 3",
default timeout, no callback. -/
def exit3Job : ShellJob := ⟨"exit 3", 10000000000, ⟨0, "", ""⟩, .NA, false⟩

/-- A demonstration job with a configured callback. -/
def cbJob : ShellJob := ⟨"exit 0", 10000000000, ⟨0, "", ""⟩, .NA, true⟩

/-- Environment of a run whose process exited with status 3: the wait
returns an exit error and the process state carries exit code 3. -/
def exit3Env : ExecEnv :=
  { stdoutCaptured := ""
    stderrCaptured := ""
    startErr := none
    deadlineFirst := false
    waitErr := some ("exit status 3")
    procExit := some 3
    ctxErr := "" }

/-- Environment of a run whose deadline expired before completion. -/
def timeoutEnv : ExecEnv :=
  { stdoutCaptured := "partial"
    stderrCaptured := ""
    startErr := none
    deadlineFirst := true
    waitErr := none
    procExit := none
    ctxErr := "context deadline exceeded" }

/-- Environment of a run whose spawn itself failed. -/
def spawnFailEnv : ExecEnv :=
  { stdoutCaptured := ""
    stderrCaptured := ""
    startErr := some ("fork-exec failure: file does not exist")
    deadlineFirst := false
    waitErr := none
    procExit := none
    ctxErr := "" }

/-- Environment of a clean run: no wait error, process exit status 0. -/
def cleanEnv : ExecEnv :=
  { stdoutCaptured := "hello"
    stderrCaptured := ""
    startErr := none
    deadlineFirst := false
    waitErr := none
    procExit := some 0
    ctxErr := "" }

/-- C2: when the spawned process completes before the deadline, the commit
takes its exit code from the process's exit status when available and -1
when the exit status is unavailable despite a wait error; the status is OK
exactly when the wait returned no error and Failure otherwise; stdout and
stderr are the captured buffers regardless of outcome; and Execute returns
the underlying wait error (none on a clean exit). -/
theorem Execute_completion_commit (sh : ShellJob) (env : ExecEnv)
    (hstart : env.startErr = none) (hrace : env.deadlineFirst = false) :
    (∀ c, env.procExit = some c → (sh.Execute env).job.ExitCode = c) ∧
    (env.procExit = none → env.waitErr.isSome →
      (sh.Execute env).job.ExitCode = -1) ∧
    ((sh.Execute env).job.JobStatus =
      if env.waitErr.isSome then Status.Failure else Status.OK) ∧
    (sh.Execute env).job.Stdout = env.stdoutCaptured ∧
    (sh.Execute env).job.Stderr = env.stderrCaptured ∧
    (sh.Execute env).ret = env.waitErr := by
  refine ⟨?_, ?_, ?_, ?_, ?_, ?_⟩
  · intro c hc
    simp [ShellJob.Execute, hstart, hrace, hc, ShellJob.ExitCode,
      ShellJob.setJobResult]
  · intro hc hw
    simp [ShellJob.Execute, hstart, hrace, hc, hw, ShellJob.ExitCode,
      ShellJob.setJobResult]
  · simp [ShellJob.Execute, hstart, hrace, ShellJob.JobStatus,
      ShellJob.setJobResult]
  · simp [ShellJob.Execute, hstart, hrace, ShellJob.Stdout,
      ShellJob.setJobResult]
  · simp [ShellJob.Execute, hstart, hrace, ShellJob.Stderr,
      ShellJob.setJobResult]
  · simp [ShellJob.Execute, hstart, hrace]

/-- Witness for C2: a process that exited with status 3 (wait error present,
process state exit code 3) commits status Failure and exit code 3, and
Execute returns the wait error. -/
theorem Execute_completion_commit_witness :
    (exit3Job.Execute exit3Env).job.ExitCode = 3 ∧
      (exit3Job.Execute exit3Env).job.JobStatus = Status.Failure ∧
      (exit3Job.Execute exit3Env).ret = some ("exit status 3") := by
  have h := Execute_completion_commit exit3Job exit3Env rfl rfl
  exact ⟨h.1 3 rfl, h.2.2.1.trans rfl, h.2.2.2.2.2⟩

/-- C3: when the deadline wins the race, Execute terminates the process,
then drains the completion watcher, then commits {captured output, -1,
Timeout} — in exactly that order, never returning with the watcher still
outstanding — and returns the context's error. -/
theorem Execute_deadline_commit (sh : ShellJob) (env : ExecEnv)
    (hstart : env.startErr = none) (hrace : env.deadlineFirst = true) :
    (sh.Execute env).events =
      [.startAttempt, .terminate, .waitDone,
        .commit ⟨-1, env.stdoutCaptured, env.stderrCaptured⟩ .Timeout] ++
      (if sh.hasCallback then [.scheduleCallback] else []) ∧
    (sh.Execute env).job.ExitCode = -1 ∧
    (sh.Execute env).job.JobStatus = Status.Timeout ∧
    (sh.Execute env).job.Stdout = env.stdoutCaptured ∧
    (sh.Execute env).job.Stderr = env.stderrCaptured ∧
    (sh.Execute env).ret = some env.ctxErr := by
  refine ⟨?_, ?_, ?_, ?_, ?_, ?_⟩ <;>
    simp [ShellJob.Execute, hstart, hrace, ShellJob.ExitCode,
      ShellJob.JobStatus, ShellJob.Stdout, ShellJob.Stderr,
      ShellJob.setJobResult]

/-- Witness for C3: the timed-out demonstration run commits Timeout with
exit code -1, keeps the partial output and returns the deadline error. -/
theorem Execute_deadline_commit_witness :
    (exit3Job.Execute timeoutEnv).job.JobStatus = Status.Timeout ∧
      (exit3Job.Execute timeoutEnv).job.ExitCode = -1 ∧
      (exit3Job.Execute timeoutEnv).job.Stdout = "partial" ∧
      (exit3Job.Execute timeoutEnv).ret =
        some ("context deadline exceeded") := by
  have h := Execute_deadline_commit exit3Job timeoutEnv rfl rfl
  exact ⟨h.2.2.1, h.2.1, h.2.2.2.1, h.2.2.2.2.2⟩

/-- C7: a spawn failure commits {captured buffers, -1, Failure} and returns
the spawn error immediately: the event trace is exactly one start attempt
followed by the commit — no watcher is consumed and the start is attempted
exactly once, so there is no internal retry. -/
theorem Execute_spawn_failure_commit (sh : ShellJob) (env : ExecEnv)
    (e : String) (hstart : env.startErr = some e) :
    (sh.Execute env).events =
      [.startAttempt,
        .commit ⟨-1, env.stdoutCaptured, env.stderrCaptured⟩ .Failure] ∧
    (sh.Execute env).job.ExitCode = -1 ∧
    (sh.Execute env).job.JobStatus = Status.Failure ∧
    (sh.Execute env).job.Stdout = env.stdoutCaptured ∧
    (sh.Execute env).job.Stderr = env.stderrCaptured ∧
    (sh.Execute env).ret = some e ∧
    ExecEvent.waitDone ∉ (sh.Execute env).events ∧
    (sh.Execute env).events.countP isStartAttempt = 1 := by
  refine ⟨?_, ?_, ?_, ?_, ?_, ?_, ?_, ?_⟩ <;>
    simp [ShellJob.Execute, hstart, ShellJob.ExitCode, ShellJob.JobStatus,
      ShellJob.Stdout, ShellJob.Stderr, ShellJob.setJobResult,
      List.countP_cons, isStartAttempt]

/-- Witness for C7: the demonstration spawn failure commits Failure with
exit code -1 and returns the spawn error. -/
theorem Execute_spawn_failure_commit_witness :
    (cbJob.Execute spawnFailEnv).job.JobStatus = Status.Failure ∧
      (cbJob.Execute spawnFailEnv).job.ExitCode = -1 ∧
      (cbJob.Execute spawnFailEnv).ret =
        some ("fork-exec failure: file does not exist") := by
  have h := Execute_spawn_failure_commit cbJob spawnFailEnv
    ("fork-exec failure: file does not exist") rfl
  exact ⟨h.2.2.1, h.2.1, h.2.2.2.2.2.1⟩

/-- Counterexample to C4 as stated: a job with a configured callback whose
spawn fails never schedules the callback — Execute returns before the
callback block, so on the spawn-failure path the callback is not invoked. -/
theorem Execute_spawn_failure_skips_callback :
    cbJob.hasCallback = true ∧
      ExecEvent.scheduleCallback ∉ (cbJob.Execute spawnFailEnv).events := by
  exact ⟨rfl, by decide⟩

/-- C4 amended: on every invocation whose spawn succeeds, a configured
callback is scheduled exactly once, strictly after the commit (it is
launched as the final step, asynchronously); the recover boundary turns a
panic inside the callback into a logged message and nothing else, and the
callback's behaviour changes neither Execute's committed job nor its
returned error.  (On the spawn-failure path the callback is skipped.) -/
theorem Execute_callback_after_commit (sh : ShellJob) (env : ExecEnv)
    (hcb : sh.hasCallback = true) (hstart : env.startErr = none) :
    (sh.Execute env).events.countP isScheduleCallback = 1 ∧
    (∃ l r st, (sh.Execute env).events =
      l ++ [ExecEvent.commit r st, ExecEvent.scheduleCallback]) ∧
    (∀ cb, (sh.executeThen env cb).1 = sh.Execute env) ∧
    (∀ m, callbackBoundary (.panics m) = some m) ∧
    callbackBoundary .finishes = none := by
  refine ⟨?_, ?_, ?_, fun _ => rfl, rfl⟩
  · by_cases hr : env.deadlineFirst = true
    · simp [ShellJob.Execute, hstart, hr, hcb, List.countP_cons,
        isScheduleCallback]
    · simp only [Bool.not_eq_true] at hr
      simp [ShellJob.Execute, hstart, hr, hcb, List.countP_cons,
        isScheduleCallback]
  · by_cases hr : env.deadlineFirst = true
    · refine ⟨[.startAttempt, .terminate, .waitDone],
        ⟨-1, env.stdoutCaptured, env.stderrCaptured⟩, .Timeout, ?_⟩
      simp [ShellJob.Execute, hstart, hr, hcb]
    · simp only [Bool.not_eq_true] at hr
      refine ⟨[.startAttempt, .waitDone],
        ⟨match env.procExit with
          | some c => c
          | none => if env.waitErr.isSome then -1 else 0,
          env.stdoutCaptured, env.stderrCaptured⟩,
        if env.waitErr.isSome then .Failure else .OK, ?_⟩
      simp [ShellJob.Execute, hstart, hr, hcb]
  · intro cb
    simp only [ShellJob.executeThen]
    split
    · rfl
    · rfl

/-- Witness for C4 amended: in the clean demonstration run of the
callback-configured job the callback is scheduled exactly once and even a
panicking callback leaves Execute's outcome unchanged. -/
theorem Execute_callback_after_commit_witness :
    (cbJob.Execute cleanEnv).events.countP isScheduleCallback = 1 ∧
      (cbJob.executeThen cleanEnv (.panics ("boom"))).1 =
        cbJob.Execute cleanEnv := by
  have h := Execute_callback_after_commit cbJob cleanEnv rfl rfl
  exact ⟨h.1, h.2.2.1 (.panics ("boom"))⟩

/-- A full `setJobResult` write section overwrites the entire shared pair:
the post-state is the committed snapshot, independent of the prior state. -/
theorem commitWrites_overwrites :
    ∀ (st : ShellJobResult × Status) (o e : String) (c : Int) (s : Status),
      List.foldl applyWrite st (commitWrites o e c s) = (⟨c, o, e⟩, s) := by
  intro ⟨r, q⟩ o e c s
  rfl

/-- C5: with the RWMutex serializing every `setJobResult` write section
against all other critical sections, every reader observes either the
initial snapshot or the complete committed snapshot of a single write
section of the history — never fields mixed from two different commits. -/
theorem read_snapshot_unmixed (init : ShellJobResult × Status)
    (hist : List Session) (obs : ShellJobResult × Status)
    (h : obs ∈ runHistory init hist) : coherent init hist obs := by
  induction hist generalizing init with
  | nil => simp [runHistory] at h
  | cons sess rest ih =>
    unfold coherent
    cases sess with
    | read =>
      simp only [runHistory, List.mem_cons] at h
      cases h with
      | inl h2 => exact Or.inl h2
      | inr h2 =>
        cases ih init h2 with
        | inl h3 => exact Or.inl h3
        | inr h3 =>
          obtain ⟨o, e, c, s, hmem, hobs⟩ := h3
          exact Or.inr ⟨o, e, c, s, List.mem_cons_of_mem _ hmem, hobs⟩
    | write o e c s =>
      simp only [runHistory] at h
      rw [commitWrites_overwrites] at h
      cases ih (⟨c, o, e⟩, s) h with
      | inl h2 => exact Or.inr ⟨o, e, c, s, List.mem_cons_self _ _, h2⟩
      | inr h2 =>
        obtain ⟨o2, e2, c2, s2, hmem, hobs⟩ := h2
        exact Or.inr ⟨o2, e2, c2, s2, List.mem_cons_of_mem _ hmem, hobs⟩

/-- Witness for C5: in a history of one commit followed by one read, the
reader's observation is coherent (here, the committed snapshot). -/
theorem read_snapshot_unmixed_witness :
    coherent (⟨0, "", ""⟩, Status.NA)
      [Session.write ("out") ("err") 7 Status.OK, Session.read]
      (⟨7, "out", "err"⟩, Status.OK) :=
  read_snapshot_unmixed (⟨0, "", ""⟩, Status.NA)
    [Session.write ("out") ("err") 7 Status.OK, Session.read]
    (⟨7, "out", "err"⟩, Status.OK) (by decide)

/-- Counterexample to C9 as stated: when the group SIGTERM succeeds and the
process dies during the grace period, the source still sends SIGKILL after
the 100 ms sleep — the kill is unconditional, not guarded by an aliveness
check. -/
theorem terminateProcess_kills_unconditionally :
    (⟨false, false, false⟩ : TermEnv).aliveAfterGrace = false ∧
      terminateProcess ⟨false, false, false⟩ =
        [.signalTermGroup, .sleep100ms, .signalKillGroup] :=
  ⟨rfl, rfl⟩

/-- C9 amended: for a non-nil process the escalation is SIGTERM to the whole
process group first; if that syscall itself fails, SIGKILL to the group
immediately; otherwise a fixed 100 ms grace period and then SIGKILL to the
group unconditionally, whether or not the process is still alive. -/
theorem terminateProcess_escalation (env : TermEnv)
    (h : env.processNil = false) :
    terminateProcess env =
      if env.termSignalFails then [.signalTermGroup, .signalKillGroup]
      else [.signalTermGroup, .sleep100ms, .signalKillGroup] := by
  simp [terminateProcess, h]

/-- Witness for C9 amended: when SIGTERM fails, SIGKILL follows at once. -/
theorem terminateProcess_escalation_witness :
    terminateProcess ⟨false, true, true⟩ =
      [TermEvent.signalTermGroup, TermEvent.signalKillGroup] :=
  (terminateProcess_escalation ⟨false, true, true⟩ rfl).trans rfl

/-- The recognized options change neither the result snapshot, nor the
status, nor the command of the job they are applied to. -/
theorem foldl_applyOpt_preserves (opts : List ShellJobOption) :
    ∀ j : ShellJob, (List.foldl applyOpt j opts).result = j.result ∧
      (List.foldl applyOpt j opts).jobStatus = j.jobStatus ∧
      (List.foldl applyOpt j opts).cmd = j.cmd := by
  induction opts with
  | nil => intro j; exact ⟨rfl, rfl, rfl⟩
  | cons o rest ih =>
    intro j
    have h := ih (applyOpt j o)
    have h2 : (applyOpt j o).result = j.result ∧
        (applyOpt j o).jobStatus = j.jobStatus ∧
        (applyOpt j o).cmd = j.cmd := by
      cases o with
      | withTimeout d =>
        simp only [applyOpt]
        split
        · exact ⟨rfl, rfl, rfl⟩
        · exact ⟨rfl, rfl, rfl⟩
      | withCallback => exact ⟨rfl, rfl, rfl⟩
    exact ⟨h.1.trans h2.1, h.2.1.trans h2.2.1, h.2.2.trans h2.2.2⟩

/-- C10: a job freshly returned by `NewShellJob` — under any recognized
options — reports status NotApplicable, exit code 0 and empty stdout and
stderr through the accessors (and its command is the non-empty one given);
moreover a clean run (no wait error, process exit status 0) commits exactly
the same exit code 0, so at the accessor the pre-execution value is
indistinguishable from a successful run's. -/
theorem NewShellJob_initial_state (defaultTimeout : Int) (cmd : String)
    (opts : List ShellJobOption) (job : ShellJob)
    (h : NewShellJob defaultTimeout cmd opts = some job) :
    job.JobStatus = Status.NA ∧ job.ExitCode = 0 ∧ job.Stdout = "" ∧
      job.Stderr = "" ∧ job.cmd = cmd ∧ cmd ≠ "" ∧
      ∀ env : ExecEnv, env.startErr = none → env.deadlineFirst = false →
        env.waitErr = none → env.procExit = some 0 →
        (job.Execute env).job.ExitCode = job.ExitCode := by
  unfold NewShellJob at h
  split at h
  · exact Option.noConfusion h
  · injection h with h2
    have hp := foldl_applyOpt_preserves opts
      { cmd := cmd, timeout := defaultTimeout,
        result := { exitCode := 0, stdout := "", stderr := "" },
        jobStatus := .NA, hasCallback := false }
    subst h2
    refine ⟨hp.2.1, ?_, ?_, ?_, hp.2.2, by assumption, ?_⟩
    · show (List.foldl applyOpt _ opts).result.exitCode = 0
      rw [hp.1]
    · show (List.foldl applyOpt _ opts).result.stdout = ""
      rw [hp.1]
    · show (List.foldl applyOpt _ opts).result.stderr = ""
      rw [hp.1]
    · intro env h1 h2 h3 h4
      have hl : ∀ j : ShellJob, (j.Execute env).job.ExitCode = 0 := by
        intro j
        simp [ShellJob.Execute, h1, h2, h3, h4, ShellJob.ExitCode,
          ShellJob.setJobResult]
      rw [hl]
      show (0 : Int) = (List.foldl applyOpt _ opts).result.exitCode
      rw [hp.1]

/-- The job `NewShellJob` returns for the command "ls" with no options. -/
def freshJob : ShellJob := ⟨"ls", 10000000000, ⟨0, "", ""⟩, .NA, false⟩

/-- Witness for C10: a freshly constructed job with no options reports
status NotApplicable and exit code 0. -/
theorem NewShellJob_initial_state_witness :
    freshJob.JobStatus = Status.NA ∧ freshJob.ExitCode = 0 ∧
      freshJob.Stdout = "" ∧ freshJob.Stderr = "" := by
  have h := NewShellJob_initial_state 10000000000 ("ls") [] freshJob
    (by decide)
  exact ⟨h.1, h.2.1, h.2.2.1, h.2.2.2.1⟩

end GoQuartz
